import Mathlib

/-!
Verification of the multi-cloud LLM router's routing engine.

The Go sources under router/internal (cost/engine.go, health/checker.go,
forward/forwarder.go, providers/openai.go, providers/claude.go,
providers/gemini.go and the router in main.go) are shallowly embedded below:
Go float64 values are modelled as rationals together with the IEEE +Inf
value produced by the cost engine; Go maps are modelled as association
lists with Go's overwrite-on-insert semantics; wall-clock times are passed
in explicitly; network I/O outcomes are passed in as data.
-/

/-- Embedding of the Go `float64` values that flow through the router:
finite values are rationals, plus the IEEE `+Inf` returned by
`CalculateCostPer1KTokens` for unknown clusters or non-positive throughput.
`NaN` and `-Inf` never arise in the embedded code paths. -/
inductive GoFloat where
  | inf : GoFloat
  | val : ℚ → GoFloat
deriving DecidableEq, Repr

/-- Go's `<=` on the embedded float values. -/
def GoFloat.le : GoFloat → GoFloat → Bool
  | _, GoFloat.inf => true
  | GoFloat.inf, GoFloat.val _ => false
  | GoFloat.val a, GoFloat.val b => decide (a ≤ b)

/-- Go's `<` on the embedded float values. -/
def GoFloat.lt : GoFloat → GoFloat → Bool
  | GoFloat.inf, _ => false
  | GoFloat.val _, GoFloat.inf => true
  | GoFloat.val a, GoFloat.val b => decide (a < b)

theorem GoFloat.le_refl (a : GoFloat) : a.le a = true := by
  cases a <;> simp [GoFloat.le]

theorem GoFloat.le_trans {a b c : GoFloat} (h1 : a.le b = true) (h2 : b.le c = true) :
    a.le c = true := by
  cases a <;> cases b <;> cases c <;>
    simp_all [GoFloat.le]
  exact h1.trans h2

theorem GoFloat.lt_eq_false {a b : GoFloat} : a.lt b = false ↔ b.le a = true := by
  cases a <;> cases b <;> simp [GoFloat.lt, GoFloat.le, not_lt]

theorem GoFloat.le_of_lt {a b : GoFloat} (h : a.lt b = true) : a.le b = true := by
  cases a <;> cases b <;> simp_all [GoFloat.lt, GoFloat.le]
  exact h.le

/-- Lookup in an association list; models reading a Go `map[string]V`
(the most recently inserted binding for a key shadows older ones). -/
def lookupAssoc {α : Type} : List (String × α) → String → Option α
  | [], _ => none
  | (k, v) :: rest, n => if k = n then some v else lookupAssoc rest n

/-- Replace the binding of an existing key; models assigning to a Go map
key that is already present. -/
def setAssoc {α : Type} : List (String × α) → String → α → List (String × α)
  | [], _, _ => []
  | (k, v) :: rest, n, x =>
    if k = n then (k, x) :: rest else (k, v) :: setAssoc rest n x

/-- Go map assignment `m[k] = v`: overwrite if present, insert otherwise. -/
def mapInsert {α : Type} (l : List (String × α)) (k : String) (v : α) :
    List (String × α) :=
  match lookupAssoc l k with
  | some _ => setAssoc l k v
  | none => (k, v) :: l

theorem lookupAssoc_setAssoc {α : Type} (l : List (String × α)) (k : String) (v : α) :
    lookupAssoc (setAssoc l k v) k = (lookupAssoc l k).map (fun _ => v) := by
  induction l with
  | nil => rfl
  | cons p rest ih =>
    by_cases h : p.1 = k <;> simp [lookupAssoc, setAssoc, h, ih]

theorem lookupAssoc_mapInsert {α : Type} (l : List (String × α)) (k : String) (v : α) :
    lookupAssoc (mapInsert l k v) k = some v := by
  unfold mapInsert
  cases h : lookupAssoc l k with
  | none => simp [lookupAssoc]
  | some w => simp [lookupAssoc_setAssoc, h]

/-! ## Cost engine (router/internal/cost/engine.go) -/

/-- `cost.ClusterCost`: cost-tracking data for one cluster.  `LastUpdate`
is the `time.Now()` tick passed in by the caller. -/
structure ClusterCost where
  CostPerHour : ℚ
  LastTokensPerSec : ℚ
  LastUpdate : ℕ
  HistoricalCosts : List ℚ
deriving DecidableEq, Repr

/-- `cost.Engine`: the overhead factor plus the per-cluster map. -/
structure CostEngine where
  overheadFactor : ℚ
  clusters : List (String × ClusterCost)
deriving DecidableEq, Repr

/-- `cost.NewEngine`. -/
def NewEngine (overheadFactor : ℚ) : CostEngine :=
  { overheadFactor := overheadFactor, clusters := [] }

/-- `cost.Engine.AddCluster`: registers a cluster with a fresh
zero-valued tracking record. -/
def CostEngine.AddCluster (e : CostEngine) (name : String) (costPerHour : ℚ) :
    CostEngine :=
  let fresh : ClusterCost :=
    { CostPerHour := costPerHour, LastTokensPerSec := 0, LastUpdate := 0,
      HistoricalCosts := [] }
  { e with clusters := mapInsert e.clusters name fresh }

/-- The history append in `CalculateCostPer1KTokens`:
`append`, then drop the oldest entry if the buffer exceeds 100. -/
def pushHistory (h : List ℚ) (x : ℚ) : List ℚ :=
  let h2 := h ++ [x]
  if h2.length > 100 then h2.tail else h2

/-- `cost.Engine.CalculateCostPer1KTokens`.  Returns the computed value
(or `+Inf`) together with the updated engine state; `now` is the
`time.Now()` tick. -/
def CalculateCostPer1KTokens (e : CostEngine) (clusterName : String)
    (tokensPerSecond : ℚ) (now : ℕ) : GoFloat × CostEngine :=
  match lookupAssoc e.clusters clusterName with
  | none => (GoFloat.inf, e)
  | some cluster =>
    if tokensPerSecond ≤ 0 then (GoFloat.inf, e)
    else
      let tokensPerHour := tokensPerSecond * 3600
      let costPer1KTokens := cluster.CostPerHour / tokensPerHour * e.overheadFactor * 1000
      let cluster2 : ClusterCost :=
        { cluster with
          LastTokensPerSec := tokensPerSecond,
          LastUpdate := now,
          HistoricalCosts := pushHistory cluster.HistoricalCosts costPer1KTokens }
      (GoFloat.val costPer1KTokens,
        { e with clusters := setAssoc e.clusters clusterName cluster2 })

theorem pushHistory_length_le (h : List ℚ) (x : ℚ) (hle : h.length ≤ 100) :
    (pushHistory h x).length ≤ 100 := by
  simp only [pushHistory]
  have hax : (h ++ [x]).length = h.length + 1 := by simp
  split
  · rw [List.length_tail, hax]
    omega
  · next hgt =>
    rw [hax] at hgt ⊢
    omega

theorem foldl_pushHistory_eq (xs : List ℚ) :
    xs.foldl pushHistory [] = xs.drop (xs.length - 100) := by
  induction xs using List.reverseRecOn with
  | nil => rfl
  | append_singleton ys y ih =>
    rw [List.foldl_append, ih]
    simp only [List.foldl_cons, List.foldl_nil]
    unfold pushHistory
    by_cases hlen : ys.length ≤ 99
    · have h0 : ys.length - 100 = 0 := by omega
      have h1 : (ys ++ [y]).length - 100 = 0 := by
        simp only [List.length_append, List.length_cons, List.length_nil]
        omega
      rw [h0, h1, List.drop_zero, List.drop_zero, if_neg]
      simp only [List.length_append, List.length_cons, List.length_nil, not_lt]
      omega
    · have hdrop_len : (ys.drop (ys.length - 100)).length = 100 := by
        rw [List.length_drop]; omega
      have hne : ys.drop (ys.length - 100) ≠ [] := by
        intro hcon
        rw [hcon] at hdrop_len
        simp at hdrop_len
      rw [if_pos]
      · rw [List.tail_append_of_ne_nil hne, List.tail_drop]
        have h99 : ys.length - 100 + 1 = ys.length - 99 := by omega
        have h99b : (ys ++ [y]).length - 100 = ys.length - 99 := by
          simp only [List.length_append, List.length_cons, List.length_nil]
          omega
        rw [h99, h99b, List.drop_append_of_le_length (by omega)]
      · simp only [List.length_append, hdrop_len, List.length_cons, List.length_nil]
        omega

/-- C2: for a registered cluster and `tokensPerSecond > 0`,
`CalculateCostPer1KTokens` returns exactly
`(costPerHour / (tokensPerSecond × 3600)) × overheadFactor × 1000`;
for `tokensPerSecond ≤ 0` or an unregistered cluster it returns `+Inf`
and leaves the engine's tracking state unchanged. -/
theorem C2_cost_per_1k (e : CostEngine) (name : String) (tps : ℚ) (now : ℕ) :
    (∀ c, lookupAssoc e.clusters name = some c → 0 < tps →
      (CalculateCostPer1KTokens e name tps now).1 =
        GoFloat.val (c.CostPerHour / (tps * 3600) * e.overheadFactor * 1000)) ∧
    (tps ≤ 0 → CalculateCostPer1KTokens e name tps now = (GoFloat.inf, e)) ∧
    (lookupAssoc e.clusters name = none →
      CalculateCostPer1KTokens e name tps now = (GoFloat.inf, e)) := by
  refine ⟨?_, ?_, ?_⟩
  · intro c hc htps
    simp [CalculateCostPer1KTokens, hc, not_le.mpr htps]
  · intro h
    cases hl : lookupAssoc e.clusters name with
    | none => simp [CalculateCostPer1KTokens, hl]
    | some c => simp [CalculateCostPer1KTokens, hl, h]
  · intro h
    simp [CalculateCostPer1KTokens, h]

theorem C2_cost_per_1k_witness :
    (CalculateCostPer1KTokens ((NewEngine (11/10)).AddCluster "gpu1" 2) "gpu1" 1 5).1
        = GoFloat.val ((2 : ℚ) / (1 * 3600) * (11/10) * 1000) ∧
    CalculateCostPer1KTokens ((NewEngine (11/10)).AddCluster "gpu1" 2) "gpu1" 0 5
        = (GoFloat.inf, (NewEngine (11/10)).AddCluster "gpu1" 2) ∧
    CalculateCostPer1KTokens ((NewEngine (11/10)).AddCluster "gpu1" 2) "nope" 1 5
        = (GoFloat.inf, (NewEngine (11/10)).AddCluster "gpu1" 2) := by
  refine ⟨?_, ?_, ?_⟩
  · exact (C2_cost_per_1k ((NewEngine (11/10)).AddCluster "gpu1" 2) "gpu1" 1 5).1 _
      rfl (by norm_num)
  · exact (C2_cost_per_1k ((NewEngine (11/10)).AddCluster "gpu1" 2) "gpu1" 0 5).2.1
      (by norm_num)
  · exact (C2_cost_per_1k ((NewEngine (11/10)).AddCluster "gpu1" 2) "nope" 1 5).2.2 rfl

/-- C5: the per-cluster cost history never exceeds 100 entries; appends are
FIFO, so 101 insertions leave exactly the last 100 values in insertion
order; and each successful `CalculateCostPer1KTokens` call appends the
computed value to the tracked history (updating `LastTokensPerSec` and
`LastUpdate` as well). -/
theorem C5_history_fifo :
    (∀ (h : List ℚ) (x : ℚ), h.length ≤ 100 → (pushHistory h x).length ≤ 100) ∧
    (∀ xs : List ℚ, xs.length = 101 → xs.foldl pushHistory [] = xs.tail) ∧
    (∀ (e : CostEngine) (name : String) (c : ClusterCost) (tps : ℚ) (now : ℕ),
      lookupAssoc e.clusters name = some c → 0 < tps →
      ∃ c2, lookupAssoc (CalculateCostPer1KTokens e name tps now).2.clusters name = some c2 ∧
        c2.CostPerHour = c.CostPerHour ∧
        c2.LastTokensPerSec = tps ∧
        c2.LastUpdate = now ∧
        c2.HistoricalCosts = pushHistory c.HistoricalCosts
          (c.CostPerHour / (tps * 3600) * e.overheadFactor * 1000)) := by
  refine ⟨pushHistory_length_le, ?_, ?_⟩
  · intro xs hlen
    rw [foldl_pushHistory_eq, hlen]
    exact List.drop_one xs
  · intro e name c tps now hc htps
    simp [CalculateCostPer1KTokens, hc, not_le.mpr htps, lookupAssoc_setAssoc]

theorem C5_history_fifo_witness :
    (pushHistory [] 1).length ≤ 100 ∧
    (List.replicate 101 (1 : ℚ)).foldl pushHistory [] = (List.replicate 101 (1 : ℚ)).tail ∧
    ∃ c2, lookupAssoc
        (CalculateCostPer1KTokens ((NewEngine 1).AddCluster "c1" 1) "c1" 1 7).2.clusters "c1"
        = some c2 ∧
      c2.CostPerHour = (1 : ℚ) ∧
      c2.LastTokensPerSec = 1 ∧
      c2.LastUpdate = 7 ∧
      c2.HistoricalCosts = pushHistory [] (1 / (1 * 3600) * 1 * 1000) := by
  refine ⟨C5_history_fifo.1 [] 1 (by simp), C5_history_fifo.2.1 _ (by simp), ?_⟩
  exact C5_history_fifo.2.2 ((NewEngine 1).AddCluster "c1" 1) "c1"
    { CostPerHour := 1, LastTokensPerSec := 0, LastUpdate := 0, HistoricalCosts := [] }
    1 7 rfl (by norm_num)

/-! ## Health checker (router/internal/health/checker.go) -/

/-- `health.ClusterMetrics`. -/
structure ClusterMetrics where
  Healthy : Bool
  LastCheck : ℕ
  ResponseTime : ℚ
  LatencyP95 : ℚ
  QueueDepth : ℤ
  TokensPerSecond : ℚ
  ErrorCount : ℕ
  ConsecutiveError : ℕ
  Endpoint : String
deriving DecidableEq, Repr

/-- The `maxConsecutiveErrors` threshold set in `health.NewChecker`. -/
def maxConsecutiveErrors : ℕ := 3

/-- `health.Checker.AddCluster` initialises a cluster entry with
`Healthy: false` and Go zero values for the remaining metric fields. -/
def initialClusterMetrics (endpoint : String) (now : ℕ) : ClusterMetrics :=
  { Healthy := false, LastCheck := now, ResponseTime := 0, LatencyP95 := 0,
    QueueDepth := 0, TokensPerSecond := 0, ErrorCount := 0, ConsecutiveError := 0,
    Endpoint := endpoint }

/-- The outcome of one `performHealthCheck` probe, as consumed by
`checkCluster`: the liveness verdict plus the (possibly defaulted)
metrics values. -/
structure CheckResult where
  healthy : Bool
  queueDepth : ℤ
  tokensPerSec : ℚ
  latencyP95 : ℚ
deriving DecidableEq, Repr

/-- The metrics update performed by `health.Checker.checkCluster` on one
cluster's entry, given the probe outcome `r`, the wall-clock tick `now`
and the measured `responseTime`. -/
def checkCluster (m : ClusterMetrics) (r : CheckResult) (now : ℕ)
    (responseTime : ℚ) : ClusterMetrics :=
  let m1 := { m with
              LastCheck := now, ResponseTime := responseTime,
              LatencyP95 := r.latencyP95, QueueDepth := r.queueDepth,
              TokensPerSecond := r.tokensPerSec }
  if r.healthy then
    { m1 with Healthy := true, ConsecutiveError := 0 }
  else
    let m2 := { m1 with
                ErrorCount := m1.ErrorCount + 1,
                ConsecutiveError := m1.ConsecutiveError + 1 }
    if maxConsecutiveErrors ≤ m2.ConsecutiveError then
      { m2 with Healthy := false }
    else
      m2

/-- A sequence of health checks applied to one cluster's entry; each step
carries the probe outcome, the tick and the measured response time. -/
def runChecks (m : ClusterMetrics) (trace : List (CheckResult × ℕ × ℚ)) :
    ClusterMetrics :=
  trace.foldl (fun acc step => checkCluster acc step.1 step.2.1 step.2.2) m

/-- `health.Checker.AddCluster` on the checker's cluster map. -/
def AddCluster (c : List (String × ClusterMetrics)) (name endpoint : String)
    (now : ℕ) : List (String × ClusterMetrics) :=
  mapInsert c name (initialClusterMetrics endpoint now)

/-- `health.Checker.GetHealthyMetrics`: the sub-map of currently healthy
clusters. -/
def GetHealthyMetrics (c : List (String × ClusterMetrics)) :
    List (String × ClusterMetrics) :=
  c.filter (fun p => p.2.Healthy)

theorem checkCluster_fail_fields (m : ClusterMetrics) (r : CheckResult) (now : ℕ)
    (rt : ℚ) (hr : r.healthy = false) :
    (checkCluster m r now rt).ErrorCount = m.ErrorCount + 1 ∧
    (checkCluster m r now rt).ConsecutiveError = m.ConsecutiveError + 1 ∧
    (checkCluster m r now rt).Healthy =
      (if maxConsecutiveErrors ≤ m.ConsecutiveError + 1 then false else m.Healthy) := by
  simp only [checkCluster, hr, Bool.false_eq_true, if_false]
  split <;> simp_all

theorem runChecks_all_fail (fails : List (CheckResult × ℕ × ℚ)) :
    ∀ m : ClusterMetrics, m.Healthy = true →
    (∀ f ∈ fails, f.1.healthy = false) →
    m.ConsecutiveError + fails.length < maxConsecutiveErrors →
    (runChecks m fails).Healthy = true ∧
    (runChecks m fails).ConsecutiveError = m.ConsecutiveError + fails.length := by
  induction fails with
  | nil => intro m hm _ _; simp [runChecks, hm]
  | cons f fs ih =>
    intro m hm hall hlen
    have hf : f.1.healthy = false := hall f (List.mem_cons_self f fs)
    have hstep := checkCluster_fail_fields m f.1 f.2.1 f.2.2 hf
    have hlt : ¬ maxConsecutiveErrors ≤ m.ConsecutiveError + 1 := by
      simp only [List.length_cons] at hlen
      omega
    have hrun : runChecks m (f :: fs) =
        runChecks (checkCluster m f.1 f.2.1 f.2.2) fs := by
      simp [runChecks]
    rw [hrun]
    have hH : (checkCluster m f.1 f.2.1 f.2.2).Healthy = true := by
      rw [hstep.2.2, if_neg hlt]; exact hm
    have hC : (checkCluster m f.1 f.2.1 f.2.2).ConsecutiveError =
        m.ConsecutiveError + 1 := hstep.2.1
    have := ih (checkCluster m f.1 f.2.1 f.2.2) hH
      (fun g hg => hall g (List.mem_cons_of_mem f hg))
      (by rw [hC]; simp only [List.length_cons] at hlen; omega)
    refine ⟨this.1, ?_⟩
    rw [this.2, hC]
    simp only [List.length_cons]
    omega

theorem runChecks_stay_unhealthy (fails : List (CheckResult × ℕ × ℚ)) :
    ∀ m : ClusterMetrics, m.Healthy = false →
    (∀ f ∈ fails, f.1.healthy = false) →
    (runChecks m fails).Healthy = false := by
  induction fails with
  | nil => intro m hm _; simpa [runChecks] using hm
  | cons f fs ih =>
    intro m hm hall
    have hf : f.1.healthy = false := hall f (List.mem_cons_self f fs)
    have hstep := checkCluster_fail_fields m f.1 f.2.1 f.2.2 hf
    have hrun : runChecks m (f :: fs) =
        runChecks (checkCluster m f.1 f.2.1 f.2.2) fs := by
      simp [runChecks]
    rw [hrun]
    refine ih _ ?_ (fun g hg => hall g (List.mem_cons_of_mem f hg))
    rw [hstep.2.2]
    split <;> simp [hm]

theorem lookupAssoc_filter_healthy (c : List (String × ClusterMetrics)) (name : String) :
    (∀ p ∈ c, p.1 = name → p.2.Healthy = false) →
    lookupAssoc (GetHealthyMetrics c) name = none := by
  induction c with
  | nil => intro _; rfl
  | cons p rest ih =>
    intro hall
    have hrest : ∀ q ∈ rest, q.1 = name → q.2.Healthy = false :=
      fun q hq => hall q (List.mem_cons_of_mem p hq)
    simp only [GetHealthyMetrics, List.filter_cons]
    by_cases hH : p.2.Healthy
    · have hname : p.1 ≠ name := by
        intro heq
        rw [hall p (List.mem_cons_self p rest) heq] at hH
        exact Bool.false_ne_true hH
      simp only [hH, if_true, lookupAssoc, if_neg hname]
      exact ih hrest
    · simp only [Bool.not_eq_true] at hH
      simp only [hH, Bool.false_eq_true, if_false]
      exact ih hrest

/-- C3: health-check hysteresis for one cluster.  A failed check
increments `errorCount` and `consecutiveErrors`, and the `healthy` flag
can turn false only when `consecutiveErrors` has reached the threshold 3;
a successful check sets `healthy = true` and resets `consecutiveErrors`
to 0 unconditionally; and after any successful check followed by fewer
than 3 failed checks the cluster is still healthy, with
`consecutiveErrors` equal to the number of failures since that success. -/
theorem C3_health_hysteresis :
    (∀ (m : ClusterMetrics) (r : CheckResult) (now : ℕ) (rt : ℚ), r.healthy = false →
      (checkCluster m r now rt).ErrorCount = m.ErrorCount + 1 ∧
      (checkCluster m r now rt).ConsecutiveError = m.ConsecutiveError + 1 ∧
      ((checkCluster m r now rt).Healthy = false →
        m.Healthy = false ∨ maxConsecutiveErrors ≤ m.ConsecutiveError + 1)) ∧
    (∀ (m : ClusterMetrics) (r : CheckResult) (now : ℕ) (rt : ℚ), r.healthy = true →
      (checkCluster m r now rt).Healthy = true ∧
      (checkCluster m r now rt).ConsecutiveError = 0) ∧
    (∀ (m : ClusterMetrics) (r : CheckResult) (now : ℕ) (rt : ℚ)
      (fails : List (CheckResult × ℕ × ℚ)), r.healthy = true →
      (∀ f ∈ fails, f.1.healthy = false) → fails.length < maxConsecutiveErrors →
      (runChecks (checkCluster m r now rt) fails).Healthy = true ∧
      (runChecks (checkCluster m r now rt) fails).ConsecutiveError = fails.length) := by
  refine ⟨?_, ?_, ?_⟩
  · intro m r now rt hr
    have hstep := checkCluster_fail_fields m r now rt hr
    refine ⟨hstep.1, hstep.2.1, ?_⟩
    intro hfalse
    rw [hstep.2.2] at hfalse
    by_cases hth : maxConsecutiveErrors ≤ m.ConsecutiveError + 1
    · exact Or.inr hth
    · rw [if_neg hth] at hfalse
      exact Or.inl hfalse
  · intro m r now rt hr
    simp [checkCluster, hr]
  · intro m r now rt fails hr hall hlen
    have hS : (checkCluster m r now rt).Healthy = true ∧
        (checkCluster m r now rt).ConsecutiveError = 0 := by
      simp [checkCluster, hr]
    have hres := runChecks_all_fail fails (checkCluster m r now rt) hS.1 hall
      (by rw [hS.2]; omega)
    refine ⟨hres.1, ?_⟩
    rw [hres.2, hS.2]
    omega

theorem C3_health_hysteresis_witness :
    (checkCluster (initialClusterMetrics "e" 0) ⟨false, 0, 0, 0⟩ 1 5).ErrorCount
        = (initialClusterMetrics "e" 0).ErrorCount + 1 ∧
    (checkCluster (initialClusterMetrics "e" 0) ⟨true, 0, 10, 100⟩ 1 5).Healthy = true ∧
    (runChecks (checkCluster (initialClusterMetrics "e" 0) ⟨true, 0, 10, 100⟩ 1 5)
        [(⟨false, 0, 0, 0⟩, 2, 5), (⟨false, 0, 0, 0⟩, 3, 5)]).Healthy = true := by
  refine ⟨(C3_health_hysteresis.1 (initialClusterMetrics "e" 0) ⟨false, 0, 0, 0⟩ 1 5 rfl).1,
          (C3_health_hysteresis.2.1 (initialClusterMetrics "e" 0) ⟨true, 0, 10, 100⟩ 1 5 rfl).1,
          ?_⟩
  exact (C3_health_hysteresis.2.2 (initialClusterMetrics "e" 0) ⟨true, 0, 10, 100⟩ 1 5
      [(⟨false, 0, 0, 0⟩, 2, 5), (⟨false, 0, 0, 0⟩, 3, 5)] rfl
      (by decide) (by decide)).1

/-- C10: a cluster registered via `AddCluster` starts with
`Healthy = false`; any sequence of failed checks keeps it unhealthy; and
an unhealthy cluster is absent from `GetHealthyMetrics`, hence invisible
to candidate construction until its first successful check. -/
theorem C10_new_cluster_hidden :
    (∀ (c : List (String × ClusterMetrics)) (name endpoint : String) (now : ℕ),
      lookupAssoc (AddCluster c name endpoint now) name
          = some (initialClusterMetrics endpoint now) ∧
      (initialClusterMetrics endpoint now).Healthy = false) ∧
    (∀ (endpoint : String) (now : ℕ) (fails : List (CheckResult × ℕ × ℚ)),
      (∀ f ∈ fails, f.1.healthy = false) →
      (runChecks (initialClusterMetrics endpoint now) fails).Healthy = false) ∧
    (∀ (c : List (String × ClusterMetrics)) (name : String),
      (∀ p ∈ c, p.1 = name → p.2.Healthy = false) →
      lookupAssoc (GetHealthyMetrics c) name = none) := by
  refine ⟨?_, ?_, ?_⟩
  · intro c name endpoint now
    exact ⟨lookupAssoc_mapInsert c name (initialClusterMetrics endpoint now), rfl⟩
  · intro endpoint now fails hall
    exact runChecks_stay_unhealthy fails (initialClusterMetrics endpoint now) rfl hall
  · exact lookupAssoc_filter_healthy

theorem C10_new_cluster_hidden_witness :
    lookupAssoc (AddCluster [] "c1" "http" 0) "c1" = some (initialClusterMetrics "http" 0) ∧
    (runChecks (initialClusterMetrics "http" 0) [(⟨false, 0, 0, 0⟩, 1, 5)]).Healthy = false ∧
    lookupAssoc (GetHealthyMetrics [("c1", initialClusterMetrics "http" 0)]) "c1" = none := by
  refine ⟨(C10_new_cluster_hidden.1 [] "c1" "http" 0).1, ?_, ?_⟩
  · exact C10_new_cluster_hidden.2.1 "http" 0 [(⟨false, 0, 0, 0⟩, 1, 5)] (by decide)
  · exact C10_new_cluster_hidden.2.2 [("c1", initialClusterMetrics "http" 0)] "c1" (by decide)

/-! ## Authenticated forwarder (router/internal/forward/forwarder.go)

The HMAC-SHA256 primitive itself is Go standard-library code, not part of
this repository; it is abstracted as a parameter
`mac : String → String → String` (key, message ↦ hex digest).  The
`X-Timestamp` header is modelled by its parsed integer value (`none`
standing for a missing or unparseable header, which `strconv.ParseInt`
rejects). -/

structure HmacHeaders where
  xTimestamp : Option ℤ
  xSignature : String
  xAuthType : String
deriving DecidableEq, Repr

/-- The signature payload built by both sides:
`timestamp + method + path + body`. -/
def signaturePayload (timestamp : ℤ) (method path body : String) : String :=
  toString timestamp ++ method ++ path ++ body

/-- `forward.Forwarder.addHMACAuth`: sign and attach the three headers. -/
def addHMACAuth (mac : String → String → String) (secret : String)
    (timestamp : ℤ) (method path body : String) : HmacHeaders :=
  { xTimestamp := some timestamp,
    xSignature := mac secret (signaturePayload timestamp method path body),
    xAuthType := "hmac-sha256" }

/-- `forward.ValidateHMACSignature`: header checks, replay window of
300 seconds, then constant-time comparison against the recomputed
signature. -/
def ValidateHMACSignature (mac : String → String → String)
    (headers : HmacHeaders) (method path : String) (secret : String)
    (body : String) (now : ℤ) : Bool :=
  match headers.xTimestamp with
  | none => false
  | some ts =>
    if headers.xSignature = "" then false
    else if headers.xAuthType ≠ "hmac-sha256" then false
    else if (now - ts).natAbs > 300 then false
    else decide (headers.xSignature = mac secret (signaturePayload ts method path body))

/-- C4: the outbound request carries `X-Timestamp`, `X-Signature` (the MAC
of `timestamp + method + path + body` under the shared secret) and
`X-Auth-Type: hmac-sha256`; validation with the same secret accepts a
signed request whose timestamp is within 300 seconds of `now`, rejects
any request whose timestamp is outside the window even with a correct
signature, and rejects a request whenever the recomputed MAC (over a
different body, path, or secret) differs from the signed one. -/
theorem C4_hmac_auth (mac : String → String → String) :
    (∀ (secret : String) (ts : ℤ) (method path body : String),
      addHMACAuth mac secret ts method path body =
        { xTimestamp := some ts,
          xSignature := mac secret (toString ts ++ method ++ path ++ body),
          xAuthType := "hmac-sha256" }) ∧
    (∀ (secret : String) (ts now : ℤ) (method path body : String),
      (now - ts).natAbs ≤ 300 →
      mac secret (signaturePayload ts method path body) ≠ "" →
      ValidateHMACSignature mac (addHMACAuth mac secret ts method path body)
        method path secret body now = true) ∧
    (∀ (secret : String) (ts now : ℤ) (method path body : String),
      300 < (now - ts).natAbs →
      ValidateHMACSignature mac (addHMACAuth mac secret ts method path body)
        method path secret body now = false) ∧
    (∀ (secret secret2 : String) (ts now : ℤ) (method path body path2 body2 : String),
      mac secret2 (signaturePayload ts method path2 body2)
          ≠ mac secret (signaturePayload ts method path body) →
      ValidateHMACSignature mac (addHMACAuth mac secret ts method path body)
        method path2 secret2 body2 now = false) := by
  refine ⟨fun secret ts method path body => rfl, ?_, ?_, ?_⟩
  · intro secret ts now method path body hwin hsig
    simp only [ValidateHMACSignature, addHMACAuth]
    rw [if_neg hsig, if_neg (by simp), if_neg (by omega)]
    simp
  · intro secret ts now method path body hwin
    by_cases hsig : mac secret (signaturePayload ts method path body) = ""
    · simp [ValidateHMACSignature, addHMACAuth, hsig]
    · simp only [ValidateHMACSignature, addHMACAuth]
      rw [if_neg hsig, if_neg (by simp), if_pos (by omega)]
  · intro secret secret2 ts now method path body path2 body2 hdiff
    by_cases hsig : mac secret (signaturePayload ts method path body) = ""
    · simp [ValidateHMACSignature, addHMACAuth, hsig]
    · simp only [ValidateHMACSignature, addHMACAuth]
      rw [if_neg hsig, if_neg (by simp)]
      by_cases hwin : (now - ts).natAbs > 300
      · rw [if_pos hwin]
      · rw [if_neg hwin]
        exact decide_eq_false (fun hcon => hdiff hcon.symm)

/-- A concrete stand-in MAC used to instantiate `C4_hmac_auth`. -/
def macDemo (key msg : String) : String :=
  "m(" ++ key ++ "|" ++ msg ++ ")"

theorem C4_hmac_auth_witness :
    ValidateHMACSignature macDemo (addHMACAuth macDemo "s3cr3t" 100 "POST" "/v1/chat" "hello")
        "POST" "/v1/chat" "s3cr3t" "hello" 200 = true ∧
    ValidateHMACSignature macDemo (addHMACAuth macDemo "s3cr3t" 100 "POST" "/v1/chat" "hello")
        "POST" "/v1/chat" "s3cr3t" "hello" 500 = false ∧
    ValidateHMACSignature macDemo (addHMACAuth macDemo "s3cr3t" 100 "POST" "/v1/chat" "hello")
        "POST" "/v1/chat" "s3cr3t" "bye" 200 = false := by
  refine ⟨?_, ?_, ?_⟩
  · exact (C4_hmac_auth macDemo).2.1 "s3cr3t" 100 200 "POST" "/v1/chat" "hello"
      (by decide) (by decide)
  · exact (C4_hmac_auth macDemo).2.2.1 "s3cr3t" 100 500 "POST" "/v1/chat" "hello" (by decide)
  · exact (C4_hmac_auth macDemo).2.2.2 "s3cr3t" "s3cr3t" 100 200 "POST" "/v1/chat" "hello"
      "/v1/chat" "bye" (by decide)

/-! ## Provider adapters (router/internal/providers) -/

/-- The observable outcome of an adapter's health probe: a transport
error, or an HTTP response with the given status code. -/
inductive HTTPOutcome where
  | netError : HTTPOutcome
  | response : ℕ → HTTPOutcome
deriving DecidableEq, Repr

/-- `providers.OpenAIProvider.Health`: succeeds (returns no error) only
on HTTP 200. -/
def OpenAIHealth : HTTPOutcome → Bool
  | HTTPOutcome.netError => false
  | HTTPOutcome.response code => decide (code = 200)

/-- `providers.ClaudeProvider.Health`: accepts both 200 and 429 (rate
limit) as healthy responses. -/
def ClaudeHealth : HTTPOutcome → Bool
  | HTTPOutcome.netError => false
  | HTTPOutcome.response code => decide (code = 200 ∨ code = 429)

/-- `providers.GeminiProvider.Health`: succeeds only on HTTP 200. -/
def GeminiHealth : HTTPOutcome → Bool
  | HTTPOutcome.netError => false
  | HTTPOutcome.response code => decide (code = 200)

/-- `providers.ModelPricing`. -/
structure ModelPricing where
  InputPricePer1K : ℚ
  OutputPricePer1K : ℚ
  MaxTokens : ℕ
  ContextWindow : ℕ
deriving DecidableEq, Repr

/-- The pricing table built in `providers.NewOpenAIProvider`. -/
def openAIPricing : List (String × ModelPricing) :=
  [("gpt-4", ⟨0.03, 0.06, 8192, 8192⟩),
   ("gpt-4-turbo", ⟨0.01, 0.03, 4096, 128000⟩),
   ("gpt-3.5-turbo", ⟨0.0005, 0.0015, 4096, 16385⟩),
   ("gpt-3.5-turbo-16k", ⟨0.003, 0.004, 16384, 16385⟩)]

/-- The pricing table built in `providers.NewClaudeProvider`. -/
def claudePricing : List (String × ModelPricing) :=
  [("claude-3-5-sonnet-20241022", ⟨0.003, 0.015, 8192, 200000⟩),
   ("claude-3-opus-20240229", ⟨0.015, 0.075, 4096, 200000⟩),
   ("claude-3-sonnet-20240229", ⟨0.003, 0.015, 4096, 200000⟩),
   ("claude-3-haiku-20240307", ⟨0.00025, 0.00125, 4096, 200000⟩)]

/-- The pricing table built in `providers.NewGeminiProvider`. -/
def geminiPricing : List (String × ModelPricing) :=
  [("gemini-1.5-pro", ⟨0.0035, 0.0105, 8192, 2000000⟩),
   ("gemini-1.5-flash", ⟨0.000075, 0.0003, 8192, 1000000⟩),
   ("gemini-pro", ⟨0.0005, 0.0015, 2048, 30720⟩)]

/-- Go map read `m[k]` without the ok flag: the zero `ModelPricing` value
when the key is absent. -/
def mapGetD (l : List (String × ModelPricing)) (k : String) : ModelPricing :=
  (lookupAssoc l k).getD ⟨0, 0, 0, 0⟩

/-- `providers.OpenAIProvider.CalculateCost`: price the tokens with the
configured default model's pricing, falling back to `gpt-3.5-turbo`. -/
def OpenAICalculateCost (defaultModel : String) (inputTokens outputTokens : ℤ) : ℚ :=
  let model := if defaultModel = "" then "gpt-3.5-turbo" else defaultModel
  let pricing :=
    match lookupAssoc openAIPricing model with
    | some p => p
    | none => mapGetD openAIPricing "gpt-3.5-turbo"
  (inputTokens : ℚ) * pricing.InputPricePer1K / 1000
    + (outputTokens : ℚ) * pricing.OutputPricePer1K / 1000

/-- `providers.ClaudeProvider.CalculateCost`: fallback model
`claude-3-haiku-20240307`. -/
def ClaudeCalculateCost (defaultModel : String) (inputTokens outputTokens : ℤ) : ℚ :=
  let model := if defaultModel = "" then "claude-3-haiku-20240307" else defaultModel
  let pricing :=
    match lookupAssoc claudePricing model with
    | some p => p
    | none => mapGetD claudePricing "claude-3-haiku-20240307"
  (inputTokens : ℚ) * pricing.InputPricePer1K / 1000
    + (outputTokens : ℚ) * pricing.OutputPricePer1K / 1000

/-- `providers.GeminiProvider.CalculateCost`: fallback model
`gemini-pro`. -/
def GeminiCalculateCost (defaultModel : String) (inputTokens outputTokens : ℤ) : ℚ :=
  let model := if defaultModel = "" then "gemini-pro" else defaultModel
  let pricing :=
    match lookupAssoc geminiPricing model with
    | some p => p
    | none => mapGetD geminiPricing "gemini-pro"
  (inputTokens : ℚ) * pricing.InputPricePer1K / 1000
    + (outputTokens : ℚ) * pricing.OutputPricePer1K / 1000

/-- Modelled from the spec's words "that provider's cheapest known
model": the pricing-table entry minimising input+output price per 1K
tokens.  Used only to compare the code's fixed fallback against the
spec's requirement. -/
def specCheapestPricing : List (String × ModelPricing) → ModelPricing
  | [] => ⟨0, 0, 0, 0⟩
  | (_, p) :: rest =>
    rest.foldl (fun best q =>
      if q.2.InputPricePer1K + q.2.OutputPricePer1K
          < best.InputPricePer1K + best.OutputPricePer1K then q.2 else best) p

/-- C7 counterexample: the OpenAI and Gemini adapters report an error on
HTTP 429, so it is not the case that every adapter treats a rate-limited
provider as healthy. -/
theorem C7_counterexample_429 :
    OpenAIHealth (HTTPOutcome.response 429) = false ∧
    GeminiHealth (HTTPOutcome.response 429) = false := by
  decide

/-- C7 (amended): only the Claude adapter tolerates HTTP 429 as healthy;
the OpenAI and Gemini adapters succeed exactly on HTTP 200, and every
adapter fails on a transport error. -/
theorem C7_health_429_amended :
    (∀ code, ClaudeHealth (HTTPOutcome.response code) = true ↔ (code = 200 ∨ code = 429)) ∧
    (∀ code, OpenAIHealth (HTTPOutcome.response code) = true ↔ code = 200) ∧
    (∀ code, GeminiHealth (HTTPOutcome.response code) = true ↔ code = 200) ∧
    ClaudeHealth (HTTPOutcome.response 429) = true ∧
    OpenAIHealth HTTPOutcome.netError = false ∧
    ClaudeHealth HTTPOutcome.netError = false ∧
    GeminiHealth HTTPOutcome.netError = false := by
  refine ⟨fun code => ?_, fun code => ?_, fun code => ?_, by decide, rfl, rfl, rfl⟩ <;>
    simp [ClaudeHealth, OpenAIHealth, GeminiHealth]

/-- C8 counterexample: with a configured default model absent from the
pricing table, the Gemini adapter prices 1000 input tokens with
`gemini-pro`'s pricing (0.0005), not with the cheapest known model's
pricing (`gemini-1.5-flash`, 0.000075), so the claimed
cheapest-model fallback fails. -/
theorem C8_counterexample_gemini_fallback :
    GeminiCalculateCost "gemini-2.0" 1000 0 = 0.0005 ∧
    (1000 : ℚ) * (specCheapestPricing geminiPricing).InputPricePer1K / 1000
        + (0 : ℚ) * (specCheapestPricing geminiPricing).OutputPricePer1K / 1000 = 0.000075 ∧
    (0.0005 : ℚ) ≠ 0.000075 := by
  refine ⟨?_, ?_, by norm_num⟩
  · simp [GeminiCalculateCost, geminiPricing, lookupAssoc, mapGetD]
  · norm_num [specCheapestPricing, geminiPricing]

/-- C8 (amended): each adapter's `CalculateCost` equals
`inputTokens × inputPricePer1K / 1000 + outputTokens × outputPricePer1K / 1000`
with the configured default model's pricing when that model is in the
table, and otherwise with the pricing of a fixed per-provider fallback
model (`gpt-3.5-turbo`, `claude-3-haiku-20240307`, `gemini-pro`); the
OpenAI and Claude fallbacks are their providers' cheapest known models,
but Gemini's is not. -/
theorem C8_cost_fallback_amended :
    (∀ (dm : String) (p : ModelPricing) (i o : ℤ),
      lookupAssoc openAIPricing dm = some p →
      OpenAICalculateCost dm i o
        = (i : ℚ) * p.InputPricePer1K / 1000 + (o : ℚ) * p.OutputPricePer1K / 1000) ∧
    (∀ (dm : String) (p : ModelPricing) (i o : ℤ),
      lookupAssoc claudePricing dm = some p →
      ClaudeCalculateCost dm i o
        = (i : ℚ) * p.InputPricePer1K / 1000 + (o : ℚ) * p.OutputPricePer1K / 1000) ∧
    (∀ (dm : String) (p : ModelPricing) (i o : ℤ),
      lookupAssoc geminiPricing dm = some p →
      GeminiCalculateCost dm i o
        = (i : ℚ) * p.InputPricePer1K / 1000 + (o : ℚ) * p.OutputPricePer1K / 1000) ∧
    (∀ (dm : String) (i o : ℤ), lookupAssoc openAIPricing dm = none →
      OpenAICalculateCost dm i o
        = (i : ℚ) * (mapGetD openAIPricing "gpt-3.5-turbo").InputPricePer1K / 1000
          + (o : ℚ) * (mapGetD openAIPricing "gpt-3.5-turbo").OutputPricePer1K / 1000) ∧
    (∀ (dm : String) (i o : ℤ), lookupAssoc claudePricing dm = none →
      ClaudeCalculateCost dm i o
        = (i : ℚ) * (mapGetD claudePricing "claude-3-haiku-20240307").InputPricePer1K / 1000
          + (o : ℚ) * (mapGetD claudePricing "claude-3-haiku-20240307").OutputPricePer1K / 1000) ∧
    (∀ (dm : String) (i o : ℤ), lookupAssoc geminiPricing dm = none →
      GeminiCalculateCost dm i o
        = (i : ℚ) * (mapGetD geminiPricing "gemini-pro").InputPricePer1K / 1000
          + (o : ℚ) * (mapGetD geminiPricing "gemini-pro").OutputPricePer1K / 1000) ∧
    mapGetD openAIPricing "gpt-3.5-turbo" = specCheapestPricing openAIPricing ∧
    mapGetD claudePricing "claude-3-haiku-20240307" = specCheapestPricing claudePricing ∧
    mapGetD geminiPricing "gemini-pro" ≠ specCheapestPricing geminiPricing := by
  refine ⟨?_, ?_, ?_, ?_, ?_, ?_, ?_, ?_, ?_⟩
  · intro dm p i o h
    by_cases hdm : dm = ""
    · subst hdm; simp [lookupAssoc, openAIPricing] at h
    · simp only [OpenAICalculateCost, if_neg hdm, h]
  · intro dm p i o h
    by_cases hdm : dm = ""
    · subst hdm; simp [lookupAssoc, claudePricing] at h
    · simp only [ClaudeCalculateCost, if_neg hdm, h]
  · intro dm p i o h
    by_cases hdm : dm = ""
    · subst hdm; simp [lookupAssoc, geminiPricing] at h
    · simp only [GeminiCalculateCost, if_neg hdm, h]
  · intro dm i o h
    by_cases hdm : dm = ""
    · subst hdm; rfl
    · simp only [OpenAICalculateCost, if_neg hdm, h]
  · intro dm i o h
    by_cases hdm : dm = ""
    · subst hdm; rfl
    · simp only [ClaudeCalculateCost, if_neg hdm, h]
  · intro dm i o h
    by_cases hdm : dm = ""
    · subst hdm; rfl
    · simp only [GeminiCalculateCost, if_neg hdm, h]
  · simp [mapGetD, lookupAssoc, openAIPricing, specCheapestPricing]
    norm_num
  · simp [mapGetD, lookupAssoc, claudePricing, specCheapestPricing]
    norm_num
  · simp [mapGetD, lookupAssoc, geminiPricing, specCheapestPricing, ModelPricing.mk.injEq]
    norm_num

theorem C8_cost_fallback_amended_witness :
    OpenAICalculateCost "gpt-4" 1000 2000
        = (1000 : ℚ) * 0.03 / 1000 + (2000 : ℚ) * 0.06 / 1000 ∧
    GeminiCalculateCost "gemini-2.0" 1000 2000
        = (1000 : ℚ) * (mapGetD geminiPricing "gemini-pro").InputPricePer1K / 1000
          + (2000 : ℚ) * (mapGetD geminiPricing "gemini-pro").OutputPricePer1K / 1000 := by
  constructor
  · exact C8_cost_fallback_amended.1 "gpt-4" ⟨0.03, 0.06, 8192, 8192⟩ 1000 2000 rfl
  · exact C8_cost_fallback_amended.2.2.2.2.2.1 "gemini-2.0" 1000 2000 rfl

/-! ## Target selector / router (router main.go) -/

/-- The `Type` field of a `RouteTarget`: `"cluster"` or `"provider"`. -/
inductive TargetType where
  | cluster : TargetType
  | provider : TargetType
deriving DecidableEq, Repr

/-- `main.RouteTarget` (the `Provider` adapter handle is not needed for
selection and is omitted). -/
structure RouteTarget where
  Name : String
  /-- the source's `Type` field (`Type` is reserved in Lean) -/
  Typ : TargetType
  Endpoint : String
  Cost : GoFloat
  IsHealthy : Bool
  LatencyP95 : GoFloat
  QueueDepth : ℤ
deriving DecidableEq, Repr

/-- The first loop of `Router.selectHybrid`: scan for the cheapest
cluster-type target whose cost is at or below the threshold (strictly
cheaper targets replace the current candidate, so the first minimum
wins). -/
def findCheapestCluster (th : GoFloat) :
    List RouteTarget → Option RouteTarget → Option RouteTarget
  | [], acc => acc
  | t :: rest, acc =>
    if t.Typ = TargetType.cluster ∧ t.Cost.le th = true then
      match acc with
      | none => findCheapestCluster th rest (some t)
      | some c =>
        if t.Cost.lt c.Cost = true then findCheapestCluster th rest (some t)
        else findCheapestCluster th rest (some c)
    else findCheapestCluster th rest acc

/-- The global-minimum scan shared by `Router.selectByCost` and the
fallback arm of `Router.selectHybrid`: start from the first target and
replace it on strictly smaller cost. -/
def cheapestFrom : RouteTarget → List RouteTarget → RouteTarget
  | c, [] => c
  | c, t :: rest =>
    if t.Cost.lt c.Cost = true then cheapestFrom t rest else cheapestFrom c rest

/-- The scan of `Router.selectByLatency`: start from the first target
(of either type) and replace it only by cluster-type targets with
strictly smaller `LatencyP95`. -/
def fastestClusterFrom : RouteTarget → List RouteTarget → RouteTarget
  | f, [] => f
  | f, t :: rest =>
    if t.Typ = TargetType.cluster ∧ t.LatencyP95.lt f.LatencyP95 = true
    then fastestClusterFrom t rest
    else fastestClusterFrom f rest

/-- First target of the given type, as scanned by
`Router.selectClusterFirst` / `Router.selectExternalFirst`. -/
def findByType (ty : TargetType) : List RouteTarget → Option RouteTarget
  | [] => none
  | t :: rest => if t.Typ = ty then some t else findByType ty rest

/-- `Router.selectHybrid` on a non-empty target list, returning the
chosen target together with the routing-decision reason label. -/
def selectHybridCore (th : GoFloat) (t0 : RouteTarget) (rest : List RouteTarget) :
    RouteTarget × String :=
  match findCheapestCluster th (t0 :: rest) none with
  | some c => (c, "hybrid_cluster")
  | none => (cheapestFrom t0 rest, "hybrid_cheapest")

/-- `Router.selectHybrid` (returns `nil` on an empty list). -/
def selectHybrid (th : GoFloat) : List RouteTarget → Option (RouteTarget × String)
  | [] => none
  | t0 :: rest => some (selectHybridCore th t0 rest)

/-- `Router.selectByCost` on a non-empty target list. -/
def selectByCostCore (t0 : RouteTarget) (rest : List RouteTarget) :
    RouteTarget × String :=
  (cheapestFrom t0 rest, "lowest_cost")

/-- `Router.selectByCost`. -/
def selectByCost : List RouteTarget → Option (RouteTarget × String)
  | [] => none
  | t0 :: rest => some (selectByCostCore t0 rest)

/-- `Router.selectByLatency` on a non-empty target list. -/
def selectByLatencyCore (t0 : RouteTarget) (rest : List RouteTarget) :
    RouteTarget × String :=
  (fastestClusterFrom t0 rest, "lowest_latency")

/-- `Router.selectByLatency`. -/
def selectByLatency : List RouteTarget → Option (RouteTarget × String)
  | [] => none
  | t0 :: rest => some (selectByLatencyCore t0 rest)

/-- `Router.selectExternalFirst` on a non-empty target list. -/
def selectExternalFirstCore (t0 : RouteTarget) (rest : List RouteTarget) :
    RouteTarget × String :=
  match findByType TargetType.provider (t0 :: rest) with
  | some t => (t, "external_first")
  | none => (t0, "cluster_fallback")

/-- `Router.selectExternalFirst`. -/
def selectExternalFirst : List RouteTarget → Option (RouteTarget × String)
  | [] => none
  | t0 :: rest => some (selectExternalFirstCore t0 rest)

/-- `Router.selectClusterFirst` on a non-empty target list. -/
def selectClusterFirstCore (t0 : RouteTarget) (rest : List RouteTarget) :
    RouteTarget × String :=
  match findByType TargetType.cluster (t0 :: rest) with
  | some t => (t, "cluster_first")
  | none => (t0, "external_fallback")

/-- `Router.selectClusterFirst`. -/
def selectClusterFirst : List RouteTarget → Option (RouteTarget × String)
  | [] => none
  | t0 :: rest => some (selectClusterFirstCore t0 rest)

/-- `Router.selectTarget`: fail on an empty candidate list, otherwise
dispatch on the configured routing strategy (default `hybrid`). -/
def selectTarget (strategy : String) (th : GoFloat) :
    List RouteTarget → Except String (RouteTarget × String)
  | [] => Except.error "no healthy targets available"
  | t0 :: rest =>
    if strategy = "cost" then Except.ok (selectByCostCore t0 rest)
    else if strategy = "latency" then Except.ok (selectByLatencyCore t0 rest)
    else if strategy = "external_first" then Except.ok (selectExternalFirstCore t0 rest)
    else if strategy = "cluster_first" then Except.ok (selectClusterFirstCore t0 rest)
    else Except.ok (selectHybridCore th t0 rest)

/-- Outcome of `Router.handleLLMRequest`: either the handler answered
`503 Service Unavailable` itself without contacting any backend, or it
forwarded the request to the named target exactly once. -/
inductive HandlerOutcome where
  | unavailable : ℕ → HandlerOutcome
  | forwarded : String → TargetType → String → HandlerOutcome
deriving DecidableEq, Repr

/-- `Router.handleLLMRequest`: select a target, answer 503 on selection
failure, otherwise forward to the selected target (the forwarding
outcome is passed in as `forwardErr`). -/
def handleLLMRequest (strategy : String) (th : GoFloat)
    (targets : List RouteTarget) (forwardErr : Bool) : HandlerOutcome :=
  match selectTarget strategy th targets with
  | Except.error _ => HandlerOutcome.unavailable 503
  | Except.ok (t, _) =>
    HandlerOutcome.forwarded t.Name t.Typ (if forwardErr then "error" else "success")

theorem findCheapestCluster_spec (th : GoFloat) (l : List RouteTarget) :
    ∀ (acc : Option RouteTarget) (c : RouteTarget),
      findCheapestCluster th l acc = some c →
      (acc = some c ∨ (c ∈ l ∧ c.Typ = TargetType.cluster ∧ c.Cost.le th = true)) ∧
      (∀ t ∈ l, t.Typ = TargetType.cluster → t.Cost.le th = true →
        c.Cost.le t.Cost = true) ∧
      (∀ a, acc = some a → c.Cost.le a.Cost = true) := by
  induction l with
  | nil =>
    intro acc c h
    simp only [findCheapestCluster] at h
    refine ⟨Or.inl h, ?_, ?_⟩
    · intro s hs _ _
      exact absurd hs (List.not_mem_nil s)
    · intro a ha
      rw [h] at ha
      obtain rfl : c = a := Option.some.inj ha
      exact GoFloat.le_refl c.Cost
  | cons t rest ih =>
    intro acc c h
    unfold findCheapestCluster at h
    by_cases hq : t.Typ = TargetType.cluster ∧ t.Cost.le th = true
    · rw [if_pos hq] at h
      cases acc with
      | none =>
        obtain ⟨hmem, hmin, hacc⟩ := ih (some t) c h
        have hct : c.Cost.le t.Cost = true := hacc t rfl
        have hcmem : c ∈ t :: rest ∧ c.Typ = TargetType.cluster ∧ c.Cost.le th = true := by
          cases hmem with
          | inl he =>
            obtain rfl : t = c := Option.some.inj he
            exact ⟨List.mem_cons_self t rest, hq.1, hq.2⟩
          | inr hr => exact ⟨List.mem_cons_of_mem t hr.1, hr.2.1, hr.2.2⟩
        refine ⟨Or.inr hcmem, ?_, ?_⟩
        · intro s hs hst hsc
          cases List.mem_cons.mp hs with
          | inl he => rw [he]; exact hct
          | inr hr => exact hmin s hr hst hsc
        · intro a ha
          exact Option.noConfusion ha
      | some a =>
        dsimp only at h
        by_cases hlt : t.Cost.lt a.Cost = true
        · rw [if_pos hlt] at h
          obtain ⟨hmem, hmin, hacc⟩ := ih (some t) c h
          have hct : c.Cost.le t.Cost = true := hacc t rfl
          have hca : c.Cost.le a.Cost = true :=
            GoFloat.le_trans hct (GoFloat.le_of_lt hlt)
          have hcmem : c ∈ t :: rest ∧ c.Typ = TargetType.cluster ∧
              c.Cost.le th = true := by
            cases hmem with
            | inl he =>
              obtain rfl : t = c := Option.some.inj he
              exact ⟨List.mem_cons_self t rest, hq.1, hq.2⟩
            | inr hr => exact ⟨List.mem_cons_of_mem t hr.1, hr.2.1, hr.2.2⟩
          refine ⟨Or.inr hcmem, ?_, ?_⟩
          · intro s hs hst hsc
            cases List.mem_cons.mp hs with
            | inl he => rw [he]; exact hct
            | inr hr => exact hmin s hr hst hsc
          · intro a2 ha2
            obtain rfl : a = a2 := Option.some.inj ha2
            exact hca
        · rw [if_neg hlt] at h
          obtain ⟨hmem, hmin, hacc⟩ := ih (some a) c h
          have hca : c.Cost.le a.Cost = true := hacc a rfl
          have hltf : t.Cost.lt a.Cost = false := by simpa using hlt
          have hat : a.Cost.le t.Cost = true := GoFloat.lt_eq_false.mp hltf
          have hct : c.Cost.le t.Cost = true := GoFloat.le_trans hca hat
          refine ⟨?_, ?_, ?_⟩
          · cases hmem with
            | inl he => exact Or.inl he
            | inr hr => exact Or.inr ⟨List.mem_cons_of_mem t hr.1, hr.2⟩
          · intro s hs hst hsc
            cases List.mem_cons.mp hs with
            | inl he => rw [he]; exact hct
            | inr hr => exact hmin s hr hst hsc
          · intro a2 ha2
            obtain rfl : a = a2 := Option.some.inj ha2
            exact hca
    · rw [if_neg hq] at h
      obtain ⟨hmem, hmin, hacc⟩ := ih acc c h
      refine ⟨?_, ?_, hacc⟩
      · cases hmem with
        | inl he => exact Or.inl he
        | inr hr => exact Or.inr ⟨List.mem_cons_of_mem t hr.1, hr.2⟩
      · intro s hs hst hsc
        cases List.mem_cons.mp hs with
        | inl he => exact absurd ⟨he ▸ hst, he ▸ hsc⟩ hq
        | inr hr => exact hmin s hr hst hsc

theorem findCheapestCluster_some_ne_none (th : GoFloat) (l : List RouteTarget) :
    ∀ a : RouteTarget, findCheapestCluster th l (some a) ≠ none := by
  induction l with
  | nil => intro a h; exact Option.noConfusion h
  | cons t rest ih =>
    intro a h
    unfold findCheapestCluster at h
    by_cases hq : t.Typ = TargetType.cluster ∧ t.Cost.le th = true
    · rw [if_pos hq] at h
      dsimp only at h
      by_cases hlt : t.Cost.lt a.Cost = true
      · rw [if_pos hlt] at h; exact ih t h
      · rw [if_neg hlt] at h; exact ih a h
    · rw [if_neg hq] at h; exact ih a h

theorem findCheapestCluster_none (th : GoFloat) (l : List RouteTarget) :
    ∀ acc : Option RouteTarget, findCheapestCluster th l acc = none →
      ∀ t ∈ l, ¬(t.Typ = TargetType.cluster ∧ t.Cost.le th = true) := by
  induction l with
  | nil => intro acc _ t ht; exact absurd ht (List.not_mem_nil t)
  | cons t rest ih =>
    intro acc h s hs
    unfold findCheapestCluster at h
    by_cases hq : t.Typ = TargetType.cluster ∧ t.Cost.le th = true
    · rw [if_pos hq] at h
      cases acc with
      | none => exact absurd h (findCheapestCluster_some_ne_none th rest t)
      | some a =>
        dsimp only at h
        by_cases hlt : t.Cost.lt a.Cost = true
        · rw [if_pos hlt] at h
          exact absurd h (findCheapestCluster_some_ne_none th rest t)
        · rw [if_neg hlt] at h
          exact absurd h (findCheapestCluster_some_ne_none th rest a)
    · rw [if_neg hq] at h
      cases List.mem_cons.mp hs with
      | inl he => exact he ▸ hq
      | inr hr => exact ih acc h s hr

theorem cheapestFrom_spec (l : List RouteTarget) :
    ∀ c : RouteTarget,
      (cheapestFrom c l = c ∨ cheapestFrom c l ∈ l) ∧
      (cheapestFrom c l).Cost.le c.Cost = true ∧
      ∀ t ∈ l, (cheapestFrom c l).Cost.le t.Cost = true := by
  induction l with
  | nil =>
    intro c
    exact ⟨Or.inl rfl, GoFloat.le_refl _, fun t ht => absurd ht (List.not_mem_nil t)⟩
  | cons t rest ih =>
    intro c
    unfold cheapestFrom
    by_cases hlt : t.Cost.lt c.Cost = true
    · rw [if_pos hlt]
      obtain ⟨hmem, hle, hall⟩ := ih t
      refine ⟨?_, GoFloat.le_trans hle (GoFloat.le_of_lt hlt), ?_⟩
      · cases hmem with
        | inl he => exact Or.inr (by rw [he]; exact List.mem_cons_self t rest)
        | inr hr => exact Or.inr (List.mem_cons_of_mem t hr)
      · intro s hs
        cases List.mem_cons.mp hs with
        | inl he => rw [he]; exact hle
        | inr hr => exact hall s hr
    · rw [if_neg hlt]
      obtain ⟨hmem, hle, hall⟩ := ih c
      have hltf : t.Cost.lt c.Cost = false := by simpa using hlt
      have hct : c.Cost.le t.Cost = true := GoFloat.lt_eq_false.mp hltf
      refine ⟨?_, hle, ?_⟩
      · cases hmem with
        | inl he => exact Or.inl he
        | inr hr => exact Or.inr (List.mem_cons_of_mem t hr)
      · intro s hs
        cases List.mem_cons.mp hs with
        | inl he => rw [he]; exact GoFloat.le_trans hle hct
        | inr hr => exact hall s hr

theorem fastestClusterFrom_spec (l : List RouteTarget) :
    ∀ f : RouteTarget,
      (fastestClusterFrom f l = f ∨
        (fastestClusterFrom f l ∈ l ∧ (fastestClusterFrom f l).Typ = TargetType.cluster)) ∧
      (fastestClusterFrom f l).LatencyP95.le f.LatencyP95 = true ∧
      ∀ t ∈ l, t.Typ = TargetType.cluster →
        (fastestClusterFrom f l).LatencyP95.le t.LatencyP95 = true := by
  induction l with
  | nil =>
    intro f
    exact ⟨Or.inl rfl, GoFloat.le_refl _, fun t ht _ => absurd ht (List.not_mem_nil t)⟩
  | cons t rest ih =>
    intro f
    unfold fastestClusterFrom
    by_cases hq : t.Typ = TargetType.cluster ∧ t.LatencyP95.lt f.LatencyP95 = true
    · rw [if_pos hq]
      obtain ⟨hmem, hle, hall⟩ := ih t
      refine ⟨?_, GoFloat.le_trans hle (GoFloat.le_of_lt hq.2), ?_⟩
      · cases hmem with
        | inl he =>
          exact Or.inr ⟨by rw [he]; exact List.mem_cons_self t rest, by rw [he]; exact hq.1⟩
        | inr hr => exact Or.inr ⟨List.mem_cons_of_mem t hr.1, hr.2⟩
      · intro s hs hsc
        cases List.mem_cons.mp hs with
        | inl he => rw [he]; exact hle
        | inr hr => exact hall s hr hsc
    · rw [if_neg hq]
      obtain ⟨hmem, hle, hall⟩ := ih f
      refine ⟨?_, hle, ?_⟩
      · cases hmem with
        | inl he => exact Or.inl he
        | inr hr => exact Or.inr ⟨List.mem_cons_of_mem t hr.1, hr.2⟩
      · intro s hs hsc
        cases List.mem_cons.mp hs with
        | inl he =>
          subst he
          have hnlt : s.LatencyP95.lt f.LatencyP95 = false := by
            by_cases hl2 : s.LatencyP95.lt f.LatencyP95 = true
            · exact absurd ⟨hsc, hl2⟩ hq
            · simpa using hl2
          exact GoFloat.le_trans hle (GoFloat.lt_eq_false.mp hnlt)
        | inr hr => exact hall s hr hsc

theorem fastestClusterFrom_no_cluster (l : List RouteTarget) :
    ∀ f : RouteTarget, (∀ t ∈ l, t.Typ ≠ TargetType.cluster) →
      fastestClusterFrom f l = f := by
  induction l with
  | nil => intro f _; rfl
  | cons t rest ih =>
    intro f hno
    unfold fastestClusterFrom
    rw [if_neg (fun hq => hno t (List.mem_cons_self t rest) hq.1)]
    exact ih f (fun s hs => hno s (List.mem_cons_of_mem t hs))

theorem TargetType.provider_ne_cluster :
    (TargetType.provider = TargetType.cluster) = False :=
  eq_false (fun h => TargetType.noConfusion h)

theorem TargetType.cluster_ne_provider :
    (TargetType.cluster = TargetType.provider) = False :=
  eq_false (fun h => TargetType.noConfusion h)

/-- The three targets of the spec's hybrid-policy scenario: clusters A
(cost 0.005) and B (cost 0.02) and external provider C (cost 0.001). -/
def clusterA : RouteTarget :=
  { Name := "A", Typ := TargetType.cluster, Endpoint := "https://a",
    Cost := GoFloat.val 0.005, IsHealthy := true,
    LatencyP95 := GoFloat.val 120, QueueDepth := 0 }

/-- Cluster B of the hybrid-policy scenario. -/
def clusterB : RouteTarget :=
  { Name := "B", Typ := TargetType.cluster, Endpoint := "https://b",
    Cost := GoFloat.val 0.02, IsHealthy := true,
    LatencyP95 := GoFloat.val 80, QueueDepth := 0 }

/-- External provider C of the hybrid-policy scenario (globally cheapest
but not a cluster). -/
def providerC : RouteTarget :=
  { Name := "C", Typ := TargetType.provider, Endpoint := "",
    Cost := GoFloat.val 0.001, IsHealthy := true,
    LatencyP95 := GoFloat.val 0, QueueDepth := 0 }

/-- C1: under the `hybrid` strategy, if any cluster-type candidate is at
or below the cost threshold then the cheapest such cluster is selected
with reason `hybrid_cluster` (even when a provider is globally cheaper);
otherwise the globally cheapest candidate of any type is selected with
reason `hybrid_cheapest`.  In particular, with clusters A (0.005) and
B (0.02), provider C (0.001) and threshold 0.01, cluster A is selected
and tagged `hybrid_cluster`. -/
theorem C1_hybrid_selection (th : GoFloat) (t0 : RouteTarget) (rest : List RouteTarget) :
    (∀ u ∈ t0 :: rest, u.Typ = TargetType.cluster → u.Cost.le th = true →
      ∃ c, selectHybrid th (t0 :: rest) = some (c, "hybrid_cluster") ∧
        c ∈ t0 :: rest ∧ c.Typ = TargetType.cluster ∧ c.Cost.le th = true ∧
        ∀ t ∈ t0 :: rest, t.Typ = TargetType.cluster → t.Cost.le th = true →
          c.Cost.le t.Cost = true) ∧
    ((∀ t ∈ t0 :: rest, t.Typ = TargetType.cluster → t.Cost.le th = true → False) →
      ∃ c, selectHybrid th (t0 :: rest) = some (c, "hybrid_cheapest") ∧
        c ∈ t0 :: rest ∧ ∀ t ∈ t0 :: rest, c.Cost.le t.Cost = true) ∧
    selectHybrid (GoFloat.val 0.01) [providerC, clusterA, clusterB]
      = some (clusterA, "hybrid_cluster") := by
  refine ⟨?_, ?_, ?_⟩
  · intro u hu hut huc
    cases hres : findCheapestCluster th (t0 :: rest) none with
    | some c =>
      obtain ⟨hmem, hmin, _⟩ := findCheapestCluster_spec th (t0 :: rest) none c hres
      cases hmem with
      | inl he => exact Option.noConfusion he
      | inr hr =>
        exact ⟨c, by simp only [selectHybrid, selectHybridCore, hres],
          hr.1, hr.2.1, hr.2.2, hmin⟩
    | none =>
      exact absurd ⟨hut, huc⟩ (findCheapestCluster_none th (t0 :: rest) none hres u hu)
  · intro hno
    cases hres : findCheapestCluster th (t0 :: rest) none with
    | some c =>
      obtain ⟨hmem, _, _⟩ := findCheapestCluster_spec th (t0 :: rest) none c hres
      cases hmem with
      | inl he => exact Option.noConfusion he
      | inr hr => exact (hno c hr.1 hr.2.1 hr.2.2).elim
    | none =>
      obtain ⟨hmem, hle, hall⟩ := cheapestFrom_spec rest t0
      refine ⟨cheapestFrom t0 rest,
        by simp only [selectHybrid, selectHybridCore, hres], ?_, ?_⟩
      · cases hmem with
        | inl he => rw [he]; exact List.mem_cons_self t0 rest
        | inr hr => exact List.mem_cons_of_mem t0 hr
      · intro t ht
        cases List.mem_cons.mp ht with
        | inl he => rw [he]; exact hle
        | inr hr => exact hall t hr
  · norm_num [selectHybrid, selectHybridCore, findCheapestCluster,
      clusterA, clusterB, providerC, GoFloat.le, GoFloat.lt, decide_eq_true_eq,
      TargetType.provider_ne_cluster, TargetType.cluster_ne_provider]

theorem C1_hybrid_selection_witness :
    ∃ c, selectHybrid (GoFloat.val 0.01) [providerC, clusterA, clusterB]
        = some (c, "hybrid_cluster") ∧
      c ∈ [providerC, clusterA, clusterB] ∧ c.Typ = TargetType.cluster ∧
      c.Cost.le (GoFloat.val 0.01) = true ∧
      ∀ t ∈ [providerC, clusterA, clusterB], t.Typ = TargetType.cluster →
        t.Cost.le (GoFloat.val 0.01) = true → c.Cost.le t.Cost = true := by
  exact (C1_hybrid_selection (GoFloat.val 0.01) providerC [clusterA, clusterB]).1
    clusterA (by simp) rfl (by norm_num [clusterA, GoFloat.le, decide_eq_true_eq])

/-- C6 counterexample: with the provider (latency 0) first in the
candidate list and a cluster (latency 120) behind it, `selectByLatency`
returns the provider, although the list contains a cluster-type
candidate — contradicting the claim that the minimal-latency cluster is
always selected and providers are excluded from the comparison. -/
theorem C6_counterexample_provider_head :
    selectByLatency [providerC, clusterA] = some (providerC, "lowest_latency") ∧
    providerC.Typ = TargetType.provider ∧
    clusterA.Typ = TargetType.cluster ∧
    clusterA ∈ [providerC, clusterA] := by
  refine ⟨?_, rfl, rfl, by simp⟩
  norm_num [selectByLatency, selectByLatencyCore, fastestClusterFrom,
    clusterA, providerC, GoFloat.lt, decide_eq_true_eq,
    TargetType.provider_ne_cluster, TargetType.cluster_ne_provider]

/-- C6 (amended): `selectByLatency` starts from the first candidate (of
either type) and replaces it only by cluster-type candidates with
strictly smaller `LatencyP95`; the selected candidate's latency is
therefore minimal among the first candidate together with all
cluster-type candidates in the rest of the list, and when the rest
contains no cluster the first candidate is returned. -/
theorem C6_latency_amended (t0 : RouteTarget) (rest : List RouteTarget) :
    ∃ f, selectByLatency (t0 :: rest) = some (f, "lowest_latency") ∧
      (f = t0 ∨ (f ∈ rest ∧ f.Typ = TargetType.cluster)) ∧
      f.LatencyP95.le t0.LatencyP95 = true ∧
      (∀ t ∈ rest, t.Typ = TargetType.cluster →
        f.LatencyP95.le t.LatencyP95 = true) ∧
      ((∀ t ∈ rest, t.Typ ≠ TargetType.cluster) → f = t0) := by
  obtain ⟨hmem, hle, hall⟩ := fastestClusterFrom_spec rest t0
  exact ⟨fastestClusterFrom t0 rest, rfl, hmem, hle, hall,
    fun hno => fastestClusterFrom_no_cluster rest t0 hno⟩

/-- C9: with an empty candidate list, `selectTarget` fails with the
"no healthy targets available" error for every strategy, and
`handleLLMRequest` answers 503 Service Unavailable without forwarding to
any backend; with a non-empty list, `selectTarget` never returns the
error. -/
theorem C9_empty_candidates_503 :
    (∀ (strategy : String) (th : GoFloat),
      selectTarget strategy th [] = Except.error "no healthy targets available") ∧
    (∀ (strategy : String) (th : GoFloat) (fe : Bool),
      handleLLMRequest strategy th [] fe = HandlerOutcome.unavailable 503) ∧
    (∀ (strategy : String) (th : GoFloat) (t0 : RouteTarget) (rest : List RouteTarget),
      ∃ r, selectTarget strategy th (t0 :: rest) = Except.ok r) := by
  refine ⟨fun _ _ => rfl, fun _ _ _ => rfl, ?_⟩
  intro strategy th t0 rest
  simp only [selectTarget]
  split_ifs <;> exact ⟨_, rfl⟩
